import Mathlib

/-!
Verification of the t212-backend stock screener (three JavaScript source
files: src/unnamed/part_000, src/unnamed/part_001, src/server.js).

Shallow embedding conventions:
* JavaScript numbers are modelled as exact rationals (ℚ); the source only
  adds, subtracts, multiplies, divides and compares finite quantities, and
  every decimal literal (0.95, 1.02, ...) is written as the corresponding
  exact rational.  NaN is modelled by a dedicated constructor / by Option
  (none = NaN) in numeric computations.
* JavaScript objects built by the enrichment functions are modelled as
  association lists from field-name strings to values, in the source's
  literal field order; property access item[k] on a missing key yields
  undefined, as in JavaScript.
* Network fetches are external inputs: each enrichment function takes the
  fetched payload as an argument.  A thrown axios error and an
  absent/falsy response body are both modelled as a none payload (the
  source returns null on both paths).
-/

/-- A JavaScript primitive value as it occurs in the screener's records and
condition literals: a finite number, a string, a boolean, null, undefined,
or NaN.  (No record field produced by the source is an object or array.) -/
inductive JsVal where
  | num (q : ℚ)
  | str (s : String)
  | bool (b : Bool)
  | null
  | undef
  | nan
deriving DecidableEq

/-- The right-hand side of a condition: either a primitive literal or an
array of primitive literals (arrays appear only as the right operand of the
`in` operation in the source's condition language). -/
inductive CondRhs where
  | val (v : JsVal)
  | arr (xs : List JsVal)
deriving DecidableEq

/-- A JavaScript object as an ordered association list (field order is the
source's literal order).  Lookup of a missing key gives undefined. -/
abbrev JsObj : Type := List (String × JsVal)

/-- Property access item[k]: first binding wins, missing key is undefined. -/
def jsGet : JsObj → String → JsVal
  | [], _ => JsVal.undef
  | (k, v) :: rest, key => if key = k then v else jsGet rest key

/-- JavaScript ToNumber coercion, with none standing for NaN.  Strings are
parsed as optionally-signed decimal literals after trimming (the only string
forms that can reach a numeric comparison here); arrays coerce through
their string form in JavaScript, which no modelled code path exercises, so
they are mapped to NaN. -/
def jsToNum : JsVal → Option ℚ
  | JsVal.num q => some q
  | JsVal.str s => parseNumeric s
  | JsVal.bool b => some (if b then 1 else 0)
  | JsVal.null => some 0
  | JsVal.undef => none
  | JsVal.nan => none
where
  digitsVal (cs : List Char) : Option ℕ :=
    cs.foldlM (fun acc ch => if ch.isDigit then some (acc * 10 + (ch.toNat - 48)) else none) 0
  parseNumeric (s : String) : Option ℚ :=
    let t := s.trim
    if t = "" then some 0
    else
      let (sgn, body) : ℚ × List Char :=
        match t.toList with
        | '-' :: rest => (-1, rest)
        | '+' :: rest => (1, rest)
        | cs => (1, cs)
      let intPart := body.takeWhile (fun ch => ch ≠ '.')
      let fracPart := (body.dropWhile (fun ch => ch ≠ '.')).drop 1
      if fracPart.contains '.' then none
      else if intPart = [] ∧ fracPart = [] then none
      else
        match digitsVal intPart, digitsVal fracPart with
        | some ip, some fp => some (sgn * ((ip : ℚ) + (fp : ℚ) / (10 : ℚ) ^ fracPart.length))
        | _, _ => none

/-- JavaScript truthiness. -/
def jsTruthy : JsVal → Bool
  | JsVal.num q => q != 0
  | JsVal.str s => s != ""
  | JsVal.bool b => b
  | JsVal.null => false
  | JsVal.undef => false
  | JsVal.nan => false

/-- JavaScript strict equality (===) on primitives; NaN is not equal to
anything, including itself. -/
def jsStrictEq : JsVal → JsVal → Bool
  | JsVal.num a, JsVal.num b => a == b
  | JsVal.str a, JsVal.str b => a == b
  | JsVal.bool a, JsVal.bool b => a == b
  | JsVal.null, JsVal.null => true
  | JsVal.undef, JsVal.undef => true
  | _, _ => false

/-- SameValueZero (the equality used by Array.prototype.includes): like
strict equality but NaN matches NaN. -/
def jsSameValueZero : JsVal → JsVal → Bool
  | JsVal.nan, JsVal.nan => true
  | a, b => jsStrictEq a b

/-- Strict equality of a primitive against a condition right-hand side; a
freshly parsed array literal is never reference-equal to a primitive. -/
def jsStrictEqRhs (left : JsVal) : CondRhs → Bool
  | CondRhs.val v => jsStrictEq left v
  | CondRhs.arr _ => false

/-- Numeric coercion of a condition right-hand side.  An array coerces via
its joined string form in JavaScript; no modelled claim compares against an
array, so this is mapped to NaN. -/
def rhsToNum : CondRhs → Option ℚ
  | CondRhs.val v => jsToNum v
  | CondRhs.arr _ => none

/-- Three-valued abstract relational comparison (JavaScript <): both-string
operands compare lexicographically, otherwise both are coerced to numbers
and none (NaN) makes the comparison undefined. -/
def jsLtQ : JsVal → JsVal → Option Bool
  | JsVal.str a, JsVal.str b => some (decide (a < b))
  | a, b =>
    match jsToNum a, jsToNum b with
    | some x, some y => some (decide (x < y))
    | _, _ => none

/-- JavaScript a > b (undefined comparison yields false). -/
def jsGtB (a b : JsVal) : Bool := (jsLtQ b a).getD false

/-- JavaScript a >= b: false exactly when a < b holds or is undefined. -/
def jsGeB (a b : JsVal) : Bool :=
  match jsLtQ a b with
  | some false => true
  | _ => false

/-- JavaScript a <= b: false exactly when b < a holds or is undefined. -/
def jsLeB (a b : JsVal) : Bool :=
  match jsLtQ b a with
  | some false => true
  | _ => false

/-- Numeric comparison x < y on already-coerced operands (Number(x) <
Number(y)); NaN on either side gives false. -/
def optLtB (a b : Option ℚ) : Bool :=
  match a, b with
  | some x, some y => decide (x < y)
  | _, _ => false

/-- NaN-propagating subtraction on coerced numbers. -/
def optSub (a b : Option ℚ) : Option ℚ :=
  match a, b with
  | some x, some y => some (x - y)
  | _, _ => none

/-- NaN-propagating multiplication on coerced numbers. -/
def optMul (a b : Option ℚ) : Option ℚ :=
  match a, b with
  | some x, some y => some (x * y)
  | _, _ => none

/-- NaN-propagating division on coerced numbers.  Division by zero is
mapped to NaN (JavaScript gives an infinity); every division in the source
sits behind a truthiness guard on the divisor, so the case is unreachable
on the modelled paths. -/
def optDiv (a b : Option ℚ) : Option ℚ :=
  match a, b with
  | some x, some y => if y = 0 then none else some (x / y)
  | _, _ => none

/-- JavaScript binary subtraction a - b (used for change = close - prevClose):
both operands are coerced to numbers; NaN propagates. -/
def jsSub (a b : JsVal) : JsVal :=
  match optSub (jsToNum a) (jsToNum b) with
  | some q => JsVal.num q
  | none => JsVal.nan

/-- Truthiness of a number-or-null JavaScript value held as Option ℚ
(none = null): null and 0 are falsy. -/
def optNumTruthy : Option ℚ → Bool
  | some q => q != 0
  | none => false

/-- A number-or-null value embedded back into a record field. -/
def optToJs : Option ℚ → JsVal
  | some q => JsVal.num q
  | none => JsVal.null

/-- Number.prototype.toFixed on the exact rational (nd decimal digits,
ties rounded half up); NaN formats as "NaN".  The binary-floating-point
artifacts of toFixed are not modelled; no claim depends on the digits. -/
def jsToFixed (nd : ℕ) : Option ℚ → String
  | none => "NaN"
  | some q =>
    let scaled : ℤ := round (q * (10 : ℚ) ^ nd)
    let sgn := if scaled < 0 then "-" else ""
    let m := scaled.natAbs
    if nd = 0 then sgn ++ toString m
    else
      let fs := toString (m % 10 ^ nd)
      sgn ++ toString (m / 10 ^ nd) ++ "." ++
        String.mk (List.replicate (nd - fs.length) '0') ++ fs

/-- Array.prototype.slice with two (possibly negative) indices: negative
indices count from the end, clamped to the array bounds; the element at the
end index is excluded. -/
def jsSlice (l : List ℚ) (start stop : Int) : List ℚ :=
  let n : Int := (l.length : Int)
  let s : Int := if start < 0 then max (n + start) 0 else min start n
  let e : Int := if stop < 0 then max (n + stop) 0 else min stop n
  (l.take e.toNat).drop s.toNat

/-- calculateSMA from src/unnamed/part_000: null when the series is shorter
than the period, otherwise the sum of the last period values divided by the
period (prices.slice(-period).reduce(..) / period). -/
def calculateSMA (prices : List ℚ) (period : ℕ) : Option ℚ :=
  if prices.length < period then none
  else some ((jsSlice prices (-(period : Int)) (prices.length : Int)).sum / (period : ℚ))

/-- calculateTrend from src/unnamed/part_000: "unknown" when fewer than
period+5 points; otherwise compares the SMA of the last five points with
the SMA of the last five points of prices.slice(-(period+5), -5).  Each SMA
is a number-or-null; in the source comparison a null operand coerces to 0
(modelled by getD 0). -/
def calculateTrend (prices : List ℚ) (period : ℕ) : String :=
  if prices.length < period + 5 then "unknown"
  else
    let recentMA := calculateSMA (jsSlice prices (-5) (prices.length : Int)) 5
    let olderMA := calculateSMA (jsSlice prices (-((period : Int) + 5)) (-5)) 5
    if recentMA.getD 0 > olderMA.getD 0 * (102 / 100) then "up"
    else if recentMA.getD 0 < olderMA.getD 0 * (98 / 100) then "down"
    else "sideways"

/-- The weekly downsample from src/unnamed/part_000: every fifth element of
the close series, starting with the first (indices 0, 5, 10, ...). -/
def strideFive : List ℚ → List ℚ
  | [] => []
  | x :: rest => x :: strideFive (rest.drop 4)
termination_by l => l.length
decreasing_by
  simp only [List.length_drop, List.length_cons]
  omega

/-- The raw Finnhub quote payload consumed by the enrichment functions:
current, open, high, low and previous-close prices, each an arbitrary
JavaScript value as delivered by the provider. -/
structure RawQuote where
  c : JsVal
  o : JsVal
  h : JsVal
  l : JsVal
  pc : JsVal
deriving DecidableEq

/-- The raw Finnhub candle payload: a status value and optional close and
volume arrays (none models an absent/falsy field; an array, even empty, is
always truthy in JavaScript, so the source checks length separately). -/
structure Candles where
  s : JsVal
  c : Option (List ℚ)
  v : Option (List ℚ)
deriving DecidableEq

/-- Maximum of a close series (Math.max(...closePrices)); only evaluated
under the source's nonempty-length guard, where the fold equals the list
maximum. -/
def listMax (l : List ℚ) : ℚ := l.foldl max (l.headD 0)

/-- Minimum of a close series (Math.min(...closePrices)); only evaluated
under the source's nonempty-length guard. -/
def listMin (l : List ℚ) : ℚ := l.foldl min (l.headD 0)

/-- The ETF symbol list of src/unnamed/part_000. -/
def etfListTrend : List String :=
  ["SPY", "QQQ", "IWM", "DIA", "XLF", "XLE", "XLK", "XLV", "XLI", "XLP",
   "XLY", "XLB", "XLU", "XLRE", "XLC", "VTI", "VOO", "EWG", "EWQ", "FEZ", "VGK"]

/-- The ETF symbol list of src/unnamed/part_001. -/
def etfListFinnhub : List String :=
  ["SPY", "QQQ", "IWM", "DIA", "XLF", "XLE", "XLK", "XLV", "XLI", "XLP",
   "XLY", "XLB", "XLU", "XLRE", "XLC", "VTI", "VOO", "VEA", "VWO", "BND",
   "GLD", "SLV", "USO", "TLT", "HYG", "LQD", "EEM", "EFA", "ARKK", "ARKG"]

/-- getStockDataWithTrend from src/unnamed/part_000, as a pure function of
the fetched quote and candle payloads (a thrown fetch error and a falsy
quote body are both modelled as a none quote, since both source paths
return null).  Returns null when the quote is falsy or its current price is
strictly equal to 0 or to null; otherwise builds the enriched record with
the source's literal fields in order. -/
def getStockDataWithTrend (symbol : String) (quoteIn : Option RawQuote)
    (candlesIn : Option Candles) : Option JsObj :=
  match quoteIn with
  | none => none
  | some quote =>
    if quote.c = JsVal.num 0 ∨ quote.c = JsVal.null then none
    else
      let hist : Option (List ℚ) :=
        match candlesIn with
        | some cd =>
          if cd.s = JsVal.str "ok" then
            match cd.c with
            | some cp => if 0 < cp.length then some cp else none
            | none => none
          else none
        | none => none
      let ma20 : Option ℚ := hist.bind (fun cp => calculateSMA cp 20)
      let ma50 : Option ℚ := hist.bind (fun cp => calculateSMA cp 50)
      let ma200 : Option ℚ := hist.bind (fun cp => calculateSMA cp 200)
      let dailyTrend : String :=
        match hist with
        | some cp => calculateTrend cp 20
        | none => "unknown"
      let weeklyTrend : String :=
        match hist with
        | some cp => if 25 ≤ cp.length then calculateTrend (strideFive cp) 4 else "unknown"
        | none => "unknown"
      let aboveMA20 : JsVal :=
        match ma20 with
        | some m => if m ≠ 0 then JsVal.bool (jsGtB quote.c (JsVal.num m)) else JsVal.null
        | none => JsVal.null
      let aboveMA50 : JsVal :=
        match ma50 with
        | some m => if m ≠ 0 then JsVal.bool (jsGtB quote.c (JsVal.num m)) else JsVal.null
        | none => JsVal.null
      let aboveMA200 : JsVal :=
        match ma200 with
        | some m => if m ≠ 0 then JsVal.bool (jsGtB quote.c (JsVal.num m)) else JsVal.null
        | none => JsVal.null
      let week52High : Option ℚ := hist.map listMax
      let week52Low : Option ℚ := hist.map listMin
      let vols : Option (List ℚ) :=
        match candlesIn with
        | some cd =>
          match cd.v with
          | some vs => if 0 < vs.length then some vs else none
          | none => none
        | none => none
      let volume : Option ℚ := vols.map (fun vs => vs.getLastD 0)
      let avgVolume : Option ℚ := vols.bind (fun vs => calculateSMA vs 20)
      let close : JsVal := quote.c
      some [
        ("symbol", JsVal.str symbol),
        ("close", close),
        ("open", quote.o),
        ("high", quote.h),
        ("low", quote.l),
        ("prevClose", quote.pc),
        ("change", jsSub close quote.pc),
        ("changePercent",
          if jsTruthy quote.pc then
            JsVal.str (jsToFixed 2
              (optMul (optDiv (optSub (jsToNum close) (jsToNum quote.pc)) (jsToNum quote.pc))
                (some 100)))
          else JsVal.num 0),
        ("volume", optToJs volume),
        ("avgVolume", optToJs avgVolume),
        ("volumeRatio",
          if optNumTruthy avgVolume then JsVal.str (jsToFixed 2 (optDiv volume avgVolume))
          else JsVal.null),
        ("volumeContraction",
          if optNumTruthy avgVolume then
            JsVal.bool (decide (volume.getD 0 < avgVolume.getD 0 * (7 / 10)))
          else JsVal.null),
        ("week52High", optToJs week52High),
        ("week52Low", optToJs week52Low),
        ("pctFrom52High",
          if optNumTruthy week52High then
            JsVal.str (jsToFixed 1 (optMul (optDiv (jsToNum close) week52High) (some 100)))
          else JsVal.null),
        ("pctFrom52Low",
          if optNumTruthy week52Low then
            JsVal.str (jsToFixed 1
              (optMul (optSub (optDiv (jsToNum close) week52Low) (some 1)) (some 100)))
          else JsVal.null),
        ("nearWeek52High",
          if optNumTruthy week52High then
            JsVal.bool (jsGeB close (JsVal.num (week52High.getD 0 * (95 / 100))))
          else JsVal.null),
        ("nearWeek52Low",
          if optNumTruthy week52Low then
            JsVal.bool (jsLeB close (JsVal.num (week52Low.getD 0 * (105 / 100))))
          else JsVal.null),
        ("ma20",
          if optNumTruthy ma20 then JsVal.str (jsToFixed 2 ma20) else JsVal.null),
        ("ma50",
          if optNumTruthy ma50 then JsVal.str (jsToFixed 2 ma50) else JsVal.null),
        ("ma200",
          if optNumTruthy ma200 then JsVal.str (jsToFixed 2 ma200) else JsVal.null),
        ("aboveMA20", aboveMA20),
        ("aboveMA50", aboveMA50),
        ("aboveMA200", aboveMA200),
        ("dailyTrend", JsVal.str dailyTrend),
        ("weeklyTrend", JsVal.str weeklyTrend),
        ("trendAlignment",
          JsVal.str (if dailyTrend = "up" ∧ weeklyTrend = "up" then "bullish"
            else if dailyTrend = "down" ∧ weeklyTrend = "down" then "bearish"
            else "mixed")),
        ("currency", JsVal.str "USD"),
        ("is_etf", JsVal.bool (symbol ∈ etfListTrend)),
        ("tradable_on_t212_cfd", JsVal.bool true),
        ("name", JsVal.str symbol)]

/-- getStockDataFinnhub from src/unnamed/part_001 (quote-only enrichment):
same quote guard as the trend variant; the history-dependent fields are
literal nulls. -/
def getStockDataFinnhub (symbol : String) (quoteIn : Option RawQuote) : Option JsObj :=
  match quoteIn with
  | none => none
  | some quote =>
    if quote.c = JsVal.num 0 ∨ quote.c = JsVal.null then none
    else
      let close : JsVal := quote.c
      some [
        ("symbol", JsVal.str symbol),
        ("close", close),
        ("open", quote.o),
        ("high", quote.h),
        ("low", quote.l),
        ("prevClose", quote.pc),
        ("change", jsSub close quote.pc),
        ("changePercent",
          if jsTruthy quote.pc then
            JsVal.str (jsToFixed 2
              (optMul (optDiv (optSub (jsToNum close) (jsToNum quote.pc)) (jsToNum quote.pc))
                (some 100)))
          else JsVal.num 0),
        ("volume", JsVal.null),
        ("avgVolume", JsVal.null),
        ("week52High", JsVal.null),
        ("week52Low", JsVal.null),
        ("marketCap", JsVal.null),
        ("currency", JsVal.str "USD"),
        ("is_etf", JsVal.bool (decide (symbol.length ≤ 4) && decide (symbol ∈ etfListFinnhub))),
        ("asset_type", JsVal.str "equity"),
        ("tradable_on_t212_cfd", JsVal.bool true),
        ("name", JsVal.str symbol)]

/-- getStockDataBatch from src/unnamed/part_000: sequential per-symbol
fetch-and-enrich, pushing only non-null results (the inter-symbol pacing
delay has no effect on the value).  The fetch argument supplies the quote
and candle payloads each symbol's network calls would return. -/
def getStockDataBatch (fetch : String → Option RawQuote × Option Candles) :
    List String → List JsObj
  | [] => []
  | s :: rest =>
    match getStockDataWithTrend s (fetch s).1 (fetch s).2 with
    | some d => d :: getStockDataBatch fetch rest
    | none => getStockDataBatch fetch rest

/-- One caller-supplied screening condition: field name, operation name,
right-hand literal. -/
structure Condition where
  left : String
  operation : String
  right : CondRhs
deriving DecidableEq

/-- Per-condition evaluation of the enhanced variants (src/unnamed/part_000
lines 346-380): a missing/null left value fails for the four required price
fields and passes vacuously otherwise; then equal / greater / less / in /
near by the source's switch, defaulting to true. -/
def evalCondEnhanced (item : JsObj) (c : Condition) : Bool :=
  let left := jsGet item c.left
  if left = JsVal.undef ∨ left = JsVal.null then
    if c.left ∈ ["close", "open", "high", "low"] then false else true
  else if c.operation = "equal" then jsStrictEqRhs left c.right
  else if c.operation = "greater" then optLtB (rhsToNum c.right) (jsToNum left)
  else if c.operation = "less" then optLtB (jsToNum left) (rhsToNum c.right)
  else if c.operation = "in" then
    match c.right with
    | CondRhs.arr xs => xs.any (fun x => jsSameValueZero x left)
    | CondRhs.val _ => false
  else if c.operation = "near" then
    if c.left = "52_week_high" then jsStrictEq (jsGet item "nearWeek52High") (JsVal.bool true)
    else if c.left = "52_week_low" then jsStrictEq (jsGet item "nearWeek52Low") (JsVal.bool true)
    else false
  else true

/-- applyConditions from src/unnamed/part_000 (enhanced variant): an empty
condition list returns the universe unchanged, otherwise keeps the records
on which every condition evaluates to true. -/
def applyConditionsEnhanced (univ : List JsObj) (conditions : List Condition) : List JsObj :=
  if conditions.length = 0 then univ
  else univ.filter (fun item => conditions.all (fun c => evalCondEnhanced item c))

/-- Per-condition evaluation of src/server.js (lines 129-169): the
fail-on-missing field list is volume/close/week52High/week52Low, and near
recomputes the 5% proximity directly from close and the 52-week extreme,
requiring both to be truthy. -/
def evalCondServer (item : JsObj) (c : Condition) : Bool :=
  let left := jsGet item c.left
  if left = JsVal.undef ∨ left = JsVal.null then
    if c.left ∈ ["volume", "close", "week52High", "week52Low"] then false else true
  else if c.operation = "equal" then jsStrictEqRhs left c.right
  else if c.operation = "greater" then optLtB (rhsToNum c.right) (jsToNum left)
  else if c.operation = "less" then optLtB (jsToNum left) (rhsToNum c.right)
  else if c.operation = "in" then
    match c.right with
    | CondRhs.arr xs => xs.any (fun x => jsSameValueZero x left)
    | CondRhs.val _ => false
  else if c.operation = "near" then
    if c.left = "52_week_high" then
      jsTruthy (jsGet item "close") && jsTruthy (jsGet item "week52High") &&
        jsGeB (jsGet item "close") (jsMulConst (jsGet item "week52High") (95 / 100))
    else if c.left = "52_week_low" then
      jsTruthy (jsGet item "close") && jsTruthy (jsGet item "week52Low") &&
        jsLeB (jsGet item "close") (jsMulConst (jsGet item "week52Low") (105 / 100))
    else false
  else true
where
  /-- JavaScript v * k for a numeric constant k; NaN when v does not coerce. -/
  jsMulConst (v : JsVal) (k : ℚ) : JsVal :=
    match jsToNum v with
    | some x => JsVal.num (x * k)
    | none => JsVal.nan

/-- applyConditions from src/server.js. -/
def applyConditionsServer (univ : List JsObj) (conditions : List Condition) : List JsObj :=
  if conditions.length = 0 then univ
  else univ.filter (fun item => conditions.all (fun c => evalCondServer item c))

/-- The record-level filter of the src/server.js screening pipeline (line
203): keep only records whose close is not strictly null, before the
condition evaluator runs. -/
def screenServerValid (allStockData : List JsObj) : List JsObj :=
  allStockData.filter (fun x => !(jsStrictEq (jsGet x "close") JsVal.null))

/-- The result list of the src/server.js screening pipeline (lines 203-207)
for an arbitrary list of fetched records. -/
def screenServerResults (allStockData : List JsObj) (conditions : List Condition) : List JsObj :=
  applyConditionsServer (screenServerValid allStockData) conditions

/-- The successful response body of the enhanced /screen endpoint. -/
structure ScreenResponse where
  count : ℕ
  universe_size : ℕ
  screened_size : ℕ
  valid_data : ℕ
  note : Option String
  results : List JsObj
deriving DecidableEq

/-- The enhanced /screen endpoint of src/unnamed/part_000 (lines 388-427),
after request validation: truncate the universe to its first 25 symbols,
fetch and enrich them in order, apply the conditions, and report the size
bookkeeping plus a truncation note exactly when the requested universe
exceeded 25. -/
def screenEnhanced (fetch : String → Option RawQuote × Option Candles)
    (univ : List String) (conditions : List Condition) : ScreenResponse :=
  let limitedUniverse := univ.take 25
  let stockData := getStockDataBatch fetch limitedUniverse
  let results := applyConditionsEnhanced stockData conditions
  { count := results.length
    universe_size := univ.length
    screened_size := limitedUniverse.length
    valid_data := stockData.length
    note :=
      if 25 < univ.length then
        some "Limited to 25 stocks due to API rate limits. For more stocks, consider Finnhub premium."
      else none
    results := results }

/-! ### Helper lemmas about slices, batches and filters -/

theorem jsSlice_last (l : List ℚ) (p : ℕ) (hp : 0 < p) :
    jsSlice l (-(p : Int)) (l.length : Int) = l.drop (l.length - p) := by
  simp only [jsSlice]
  rw [if_pos (by omega : (-(p : Int)) < 0), if_neg (by omega : ¬ ((l.length : Int) < 0)),
    min_self]
  have hs : (max ((l.length : Int) + -(p : Int)) 0).toNat = l.length - p := by omega
  have he : ((l.length : Int)).toNat = l.length := by omega
  rw [hs, he, List.take_length]

theorem jsSlice_neg_neg (l : List ℚ) (a b : ℕ) (ha : 0 < a) (hb : 0 < b) :
    jsSlice l (-(a : Int)) (-(b : Int)) = (l.take (l.length - b)).drop (l.length - a) := by
  simp only [jsSlice]
  rw [if_pos (by omega : (-(a : Int)) < 0), if_pos (by omega : (-(b : Int)) < 0)]
  have hs : (max ((l.length : Int) + -(a : Int)) 0).toNat = l.length - a := by omega
  have he : (max ((l.length : Int) + -(b : Int)) 0).toNat = l.length - b := by omega
  rw [hs, he]

theorem calculateSMA_eq (l : List ℚ) (p : ℕ) (hp : 0 < p) (hle : p ≤ l.length) :
    calculateSMA l p = some ((l.drop (l.length - p)).sum / (p : ℚ)) := by
  unfold calculateSMA
  rw [if_neg (by omega), jsSlice_last l p hp]

theorem applyConditionsEnhanced_subset {u : List JsObj} {cs : List Condition} {r : JsObj}
    (h : r ∈ applyConditionsEnhanced u cs) : r ∈ u := by
  unfold applyConditionsEnhanced at h
  split at h
  · exact h
  · exact List.mem_of_mem_filter h

theorem applyConditionsServer_subset {u : List JsObj} {cs : List Condition} {r : JsObj}
    (h : r ∈ applyConditionsServer u cs) : r ∈ u := by
  unfold applyConditionsServer at h
  split at h
  · exact h
  · exact List.mem_of_mem_filter h

theorem applyConditionsEnhanced_length_le (u : List JsObj) (cs : List Condition) :
    (applyConditionsEnhanced u cs).length ≤ u.length := by
  unfold applyConditionsEnhanced
  split
  · exact le_refl _
  · exact List.length_filter_le _ _

theorem getStockDataBatch_eq_filterMap (fetch : String → Option RawQuote × Option Candles)
    (symbols : List String) :
    getStockDataBatch fetch symbols
      = symbols.filterMap (fun s => getStockDataWithTrend s (fetch s).1 (fetch s).2) := by
  induction symbols with
  | nil => rfl
  | cons s rest ih =>
    rw [List.filterMap_cons]
    cases h : getStockDataWithTrend s (fetch s).1 (fetch s).2 with
    | none => simp only [getStockDataBatch, h, ih]
    | some d => simp only [getStockDataBatch, h, ih]

theorem getStockDataWithTrend_close (symbol : String) (quoteIn : Option RawQuote)
    (candlesIn : Option Candles) (r : JsObj)
    (h : getStockDataWithTrend symbol quoteIn candlesIn = some r) :
    jsGet r "close" ≠ JsVal.null := by
  match quoteIn with
  | none => simp [getStockDataWithTrend] at h
  | some q =>
    by_cases hguard : q.c = JsVal.num 0 ∨ q.c = JsVal.null
    · simp only [getStockDataWithTrend, if_pos hguard] at h
      exact Option.noConfusion h
    · push_neg at hguard
      simp only [getStockDataWithTrend, hguard.1, hguard.2, or_self, if_false,
        Option.some.injEq] at h
      subst h
      simp [jsGet]
      exact hguard.2

/-- Transcription of claim C4's wording for comparison with the source:
baseline = SMA of the 5 points ending period points before the most recent
point (indices len-period-5 .. len-period-1), recent = SMA of the last 5
points, strict 2% band. -/
def trendPerClaim (prices : List ℚ) (period : ℕ) : String :=
  if prices.length < period + 5 then "unknown"
  else
    let recent := (prices.drop (prices.length - 5)).sum / 5
    let baseline := ((prices.drop (prices.length - (period + 5))).take 5).sum / 5
    if recent > baseline * (102 / 100) then "up"
    else if recent < baseline * (98 / 100) then "down"
    else "sideways"

/-- The baseline window the source actually averages: the last five points
of prices.slice(-(period+5), -5), i.e. the five points ending five points
before the most recent one (indices len-10 .. len-6), independent of the
period. -/
def trendAmended (prices : List ℚ) (period : ℕ) : String :=
  if prices.length < period + 5 then "unknown"
  else
    let recent := (prices.drop (prices.length - 5)).sum / 5
    let baseline := ((prices.drop (prices.length - 10)).take 5).sum / 5
    if recent > baseline * (102 / 100) then "up"
    else if recent < baseline * (98 / 100) then "down"
    else "sideways"

/-- calculateTrend agrees with its closed form trendAmended whenever the
period is at least 5 (helper shared by the C4 theorems). -/
theorem calculateTrend_eq_trendAmended (prices : List ℚ) (period : ℕ) (hp : 5 ≤ period) :
    calculateTrend prices period = trendAmended prices period := by
  by_cases hlen : prices.length < period + 5
  · unfold calculateTrend trendAmended
    rw [if_pos hlen, if_pos hlen]
  · push_neg at hlen
    have hrec : calculateSMA (jsSlice prices (-5) (prices.length : Int)) 5
        = some ((prices.drop (prices.length - 5)).sum / 5) := by
      rw [(by norm_num : (-5 : Int) = -((5 : ℕ) : Int)), jsSlice_last prices 5 (by norm_num)]
      have h5 : (prices.drop (prices.length - 5)).length = 5 := by
        rw [List.length_drop]; omega
      rw [calculateSMA_eq _ 5 (by norm_num) (by rw [h5]), h5]
      norm_num
    have hold : calculateSMA (jsSlice prices (-((period : Int) + 5)) (-5)) 5
        = some (((prices.drop (prices.length - 10)).take 5).sum / 5) := by
      have hcast : -((period : Int) + 5) = -(((period + 5 : ℕ) : Int)) := by push_cast; ring
      rw [hcast, (by norm_num : (-5 : Int) = -((5 : ℕ) : Int)),
        jsSlice_neg_neg prices (period + 5) 5 (by omega) (by norm_num)]
      have hwlen : ((prices.take (prices.length - 5)).drop (prices.length - (period + 5))).length
          = period := by
        rw [List.length_drop, List.length_take]; omega
      rw [calculateSMA_eq _ 5 (by norm_num) (by omega), hwlen]
      have hwin : ((prices.take (prices.length - 5)).drop (prices.length - (period + 5))).drop
            (period - 5)
          = (prices.drop (prices.length - 10)).take 5 := by
        rw [List.drop_drop]
        have harith : (prices.length - (period + 5)) + (period - 5) = prices.length - 10 := by
          omega
        rw [harith, List.drop_take]
        have h5' : prices.length - 5 - (prices.length - 10) = 5 := by omega
        rw [h5']
      rw [hwin]
      norm_num
    have hcond : ¬ prices.length < period + 5 := by omega
    unfold calculateTrend trendAmended
    rw [if_neg hcond, hrec, hold, if_neg hcond]
    simp only [Option.getD_some]

/-! ### Claim theorems -/

/-- C4 (amended): for every price series and every period of at least 5,
calculateTrend returns "unknown" below period+5 points and otherwise
classifies strictly against the 2% band with recent = SMA of the last five
points and baseline = SMA of the five points ending five points before the
most recent one (not period points before, as the claim stated). -/
theorem calculateTrend_amended (prices : List ℚ) (period : ℕ) (hp : 5 ≤ period) :
    calculateTrend prices period = trendAmended prices period :=
  calculateTrend_eq_trendAmended prices period hp

/-- The concrete 25-point series separating the source's baseline window
from the claim's. -/
def trendSeriesC4 : List ℚ :=
  [1000, 1000, 1000, 1000, 1000, 1, 1, 1, 1, 1, 1, 1, 1, 1, 1,
   10, 10, 10, 10, 10, 20, 20, 20, 20, 20]

/-- C4 counterexample: on a concrete 25-point series with period 20, the
source's calculateTrend answers "up" while the claim's stated baseline (the
SMA of the five points ending period points before the most recent) would
force "down": the claim's description of the baseline window is false of
the code. -/
theorem trend_baseline_counterexample :
    calculateTrend trendSeriesC4 20 = "up" ∧ trendPerClaim trendSeriesC4 20 = "down" := by
  constructor
  · rw [calculateTrend_eq_trendAmended trendSeriesC4 20 (by norm_num)]
    simp only [trendAmended]
    rw [if_neg (by norm_num [trendSeriesC4])]
    rw [(by rfl : List.drop (trendSeriesC4.length - 5) trendSeriesC4 = [20, 20, 20, 20, 20]),
      (by rfl :
        List.take 5 (List.drop (trendSeriesC4.length - 10) trendSeriesC4)
          = [10, 10, 10, 10, 10])]
    norm_num
  · simp only [trendPerClaim]
    rw [if_neg (by norm_num [trendSeriesC4])]
    rw [(by rfl : List.drop (trendSeriesC4.length - 5) trendSeriesC4 = [20, 20, 20, 20, 20]),
      (by rfl :
        List.take 5 (List.drop (trendSeriesC4.length - (20 + 5)) trendSeriesC4)
          = [1000, 1000, 1000, 1000, 1000])]
    norm_num

/-- C4 witness: the amended theorem applied at a concrete series and the
default period 20. -/
theorem calculateTrend_amended_witness :
    calculateTrend (List.replicate 25 (1 : ℚ)) 20
      = trendAmended (List.replicate 25 (1 : ℚ)) 20 :=
  calculateTrend_amended (List.replicate 25 (1 : ℚ)) 20 (by norm_num)

/-- C5: calculateSMA is null exactly below period points, and otherwise is
the sum of the last period points divided by the period, i.e. the
arithmetic mean of the last period elements. -/
theorem calculateSMA_spec (s : List ℚ) (p : ℕ) :
    (s.length < p → calculateSMA s p = none) ∧
    (p ≤ s.length → calculateSMA s p = some ((s.drop (s.length - p)).sum / (p : ℚ))) := by
  constructor
  · intro h
    unfold calculateSMA
    rw [if_pos h]
  · intro h
    rcases Nat.eq_zero_or_pos p with hp | hp
    · subst hp
      unfold calculateSMA
      rw [if_neg (by omega)]
      norm_num [div_zero]
    · exact calculateSMA_eq s p hp h

/-- C5 witness: the running example SMA([10,20,30], 3) = 20, and a series
shorter than the period gives null. -/
theorem calculateSMA_spec_witness :
    calculateSMA [10, 20, 30] 3 = some 20 ∧ calculateSMA [10, 20, 30] 5 = none := by
  constructor
  · rw [(calculateSMA_spec [10, 20, 30] 3).2 (by norm_num)]
    norm_num
  · exact (calculateSMA_spec [10, 20, 30] 5).1 (by norm_num)

/-- C1 (amended): with an absent (undefined or null) left value, the
enhanced evaluator fails exactly for the four required price fields close /
open / high / low and passes vacuously otherwise, while the server.js
evaluator's fail-on-missing list is volume / close / week52High /
week52Low instead. -/
theorem missing_field_policy (item : JsObj) (c : Condition)
    (h : jsGet item c.left = JsVal.undef ∨ jsGet item c.left = JsVal.null) :
    (evalCondEnhanced item c
        = if c.left ∈ ["close", "open", "high", "low"] then false else true) ∧
    (evalCondServer item c
        = if c.left ∈ ["volume", "close", "week52High", "week52Low"] then false else true) := by
  constructor
  · simp only [evalCondEnhanced]
    rw [if_pos h]
  · simp only [evalCondServer]
    rw [if_pos h]

/-- C1 witness: a record with close null fails the greater-than-zero
condition on close and passes vacuously on marketCap, through the policy
theorem. -/
theorem missing_field_policy_witness :
    evalCondEnhanced [("close", JsVal.null)]
        ⟨"close", "greater", CondRhs.val (JsVal.num 0)⟩ = false ∧
    evalCondEnhanced [("close", JsVal.null)]
        ⟨"marketCap", "greater", CondRhs.val (JsVal.num 0)⟩ = true := by
  constructor
  · rw [(missing_field_policy [("close", JsVal.null)]
      ⟨"close", "greater", CondRhs.val (JsVal.num 0)⟩ (by decide)).1]
    decide
  · rw [(missing_field_policy [("close", JsVal.null)]
      ⟨"marketCap", "greater", CondRhs.val (JsVal.num 0)⟩ (by decide)).1]
    decide

/-- C1 counterexample: in the src/server.js evaluator a condition on an
absent "open" field passes vacuously (open is not in that revision's
fail-on-missing list), although the claim says a missing open must fail. -/
theorem missing_open_passes_server :
    evalCondServer [("close", JsVal.num 5)]
      ⟨"open", "greater", CondRhs.val (JsVal.num 0)⟩ = true := by
  decide

/-- C9: any operation name outside equal / greater / less / in / near
evaluates to true (fail-open) in both the enhanced and the server.js
evaluators whenever the left value is present (neither undefined nor
null). -/
theorem unknown_operation_fail_open (item : JsObj) (c : Condition)
    (hop : c.operation ∉ ["equal", "greater", "less", "in", "near"])
    (h1 : jsGet item c.left ≠ JsVal.undef) (h2 : jsGet item c.left ≠ JsVal.null) :
    evalCondEnhanced item c = true ∧ evalCondServer item c = true := by
  simp only [List.mem_cons, List.not_mem_nil, or_false, not_or] at hop
  obtain ⟨he, hg, hl, hi, hn⟩ := hop
  constructor
  · simp only [evalCondEnhanced]
    rw [if_neg (not_or.mpr ⟨h1, h2⟩), if_neg he, if_neg hg, if_neg hl, if_neg hi, if_neg hn]
  · simp only [evalCondServer]
    rw [if_neg (not_or.mpr ⟨h1, h2⟩), if_neg he, if_neg hg, if_neg hl, if_neg hi, if_neg hn]

/-- C9 witness: a made-up operation name on a present field passes in both
evaluators. -/
theorem unknown_operation_fail_open_witness :
    evalCondEnhanced [("close", JsVal.num 5)]
        ⟨"close", "between", CondRhs.val (JsVal.num 0)⟩ = true ∧
    evalCondServer [("close", JsVal.num 5)]
        ⟨"close", "between", CondRhs.val (JsVal.num 0)⟩ = true :=
  unknown_operation_fail_open [("close", JsVal.num 5)]
    ⟨"close", "between", CondRhs.val (JsVal.num 0)⟩ (by decide) (by decide) (by decide)

/-- C2 (code bug): for a record built by getStockDataWithTrend with
historical data, the missing-field guard fires before the near branch,
because no record field is literally named "52_week_high": on a record
whose precomputed nearWeek52High flag is false (close 50 against a 52-week
high of 100), the near condition on 52_week_high still evaluates to true
(vacuous pass), so the flag-reading branch of the near case is dead code. -/
theorem near_condition_dead_code :
    (getStockDataWithTrend "AAA"
        (some ⟨JsVal.num 50, JsVal.num 50, JsVal.num 50, JsVal.num 50, JsVal.num 50⟩)
        (some ⟨JsVal.str "ok", some [100], none⟩)).map
      (fun r => (jsGet r "nearWeek52High",
        evalCondEnhanced r ⟨"52_week_high", "near", CondRhs.val JsVal.undef⟩))
      = some (JsVal.bool false, true) := by
  norm_num [getStockDataWithTrend, evalCondEnhanced, jsGet, listMax, optNumTruthy,
    jsGeB, jsLtQ, jsToNum, calculateSMA, jsSlice, jsStrictEq, bne]
  refine ⟨_, ⟨by decide, rfl⟩, ?_, ?_⟩
  · decide
  · rw [if_pos (Or.inl (by decide))]
    decide

/-- C3: in the src/server.js pipeline every record that reaches condition
evaluation (the filtered valid list) and every record in the final result
list has a close that is not strictly null, for any fetched data; in the
enhanced src/unnamed/part_000 pipeline the same invariant follows from the
enrichment guard, for any quote source. -/
theorem screening_close_nonnull :
    (∀ (data : List JsObj) (conds : List Condition) (r : JsObj),
      (r ∈ screenServerValid data → jsGet r "close" ≠ JsVal.null) ∧
      (r ∈ screenServerResults data conds → jsGet r "close" ≠ JsVal.null)) ∧
    (∀ (fetch : String → Option RawQuote × Option Candles) (univ : List String)
      (conds : List Condition) (r : JsObj),
      (r ∈ getStockDataBatch fetch (univ.take 25) → jsGet r "close" ≠ JsVal.null) ∧
      (r ∈ (screenEnhanced fetch univ conds).results → jsGet r "close" ≠ JsVal.null)) := by
  constructor
  · intro data conds r
    have hvalid : r ∈ screenServerValid data → jsGet r "close" ≠ JsVal.null := by
      intro hmem hnull
      unfold screenServerValid at hmem
      have h2 := (List.mem_filter.mp hmem).2
      rw [hnull] at h2
      simp [jsStrictEq] at h2
    exact ⟨hvalid, fun hmem => hvalid (applyConditionsServer_subset hmem)⟩
  · intro fetch univ conds r
    have hbatch : r ∈ getStockDataBatch fetch (univ.take 25) → jsGet r "close" ≠ JsVal.null := by
      intro hr
      rw [getStockDataBatch_eq_filterMap] at hr
      obtain ⟨s, hs, hsome⟩ := List.mem_filterMap.mp hr
      exact getStockDataWithTrend_close s _ _ r hsome
    exact ⟨hbatch, fun hmem => hbatch (applyConditionsEnhanced_subset hmem)⟩

/-- C3 witness: a concrete record surviving the server.js close filter has
a non-null close. -/
theorem screening_close_nonnull_witness :
    jsGet [("close", JsVal.num 5)] "close" ≠ JsVal.null :=
  (screening_close_nonnull.1 [[("close", JsVal.num 5)]] [] [("close", JsVal.num 5)]).1
    (by decide)

/-- C6: for every request, a universe longer than 25 symbols is screened as
exactly its first 25 (screened_size 25, universe_size the original length,
a non-null truncation note, results computed from the first 25 symbols
only), and a universe of at most 25 symbols gets no truncation note. -/
theorem truncation_spec (fetch : String → Option RawQuote × Option Candles)
    (univ : List String) (conds : List Condition) :
    (25 < univ.length →
      (screenEnhanced fetch univ conds).screened_size = 25 ∧
      (screenEnhanced fetch univ conds).universe_size = univ.length ∧
      (screenEnhanced fetch univ conds).note ≠ none ∧
      (screenEnhanced fetch univ conds).results
        = applyConditionsEnhanced (getStockDataBatch fetch (univ.take 25)) conds) ∧
    (univ.length ≤ 25 → (screenEnhanced fetch univ conds).note = none) := by
  constructor
  · intro h
    refine ⟨?_, rfl, ?_, rfl⟩
    · simp only [screenEnhanced, List.length_take]
      omega
    · simp only [screenEnhanced]
      rw [if_pos h]
      exact fun hc => Option.noConfusion hc
  · intro h
    simp only [screenEnhanced]
    rw [if_neg (by omega)]

/-- C6 witness: a 26-symbol universe gets a note, a 25-symbol universe does
not. -/
theorem truncation_spec_witness :
    (screenEnhanced (fun _ => (none, none)) (List.replicate 26 "A") []).note ≠ none ∧
    (screenEnhanced (fun _ => (none, none)) (List.replicate 25 "A") []).note = none :=
  ⟨((truncation_spec (fun _ => (none, none)) (List.replicate 26 "A") []).1 (by decide)).2.2.1,
    (truncation_spec (fun _ => (none, none)) (List.replicate 25 "A") []).2 (by decide)⟩

/-- C7 (amended): whenever the previous close is falsy (null, undefined, 0
or NaN) and a record is produced, the changePercent field is the number 0
(not null); both the trend-enriched and the quote-only enrichment agree,
and no division by the falsy previous close is performed. -/
theorem changePercent_guarded (symbol : String) (q : RawQuote) (candlesIn : Option Candles)
    (r : JsObj) (hpc : jsTruthy q.pc = false) :
    (getStockDataWithTrend symbol (some q) candlesIn = some r →
      jsGet r "changePercent" = JsVal.num 0) ∧
    (getStockDataFinnhub symbol (some q) = some r → jsGet r "changePercent" = JsVal.num 0) := by
  constructor
  · intro h
    by_cases hguard : q.c = JsVal.num 0 ∨ q.c = JsVal.null
    · simp only [getStockDataWithTrend, if_pos hguard] at h
      exact Option.noConfusion h
    · push_neg at hguard
      simp only [getStockDataWithTrend, hguard.1, hguard.2, or_self, if_false,
        Option.some.injEq] at h
      subst h
      simp [jsGet, hpc]
  · intro h
    by_cases hguard : q.c = JsVal.num 0 ∨ q.c = JsVal.null
    · simp only [getStockDataFinnhub, if_pos hguard] at h
      exact Option.noConfusion h
    · push_neg at hguard
      simp only [getStockDataFinnhub, hguard.1, hguard.2, or_self, if_false,
        Option.some.injEq] at h
      subst h
      simp [jsGet, hpc]

/-- C7 counterexample: a quote with previous close null yields a record
whose changePercent is the number 0, which is not null as the claim
states. -/
theorem changePercent_zero_not_null :
    ((getStockDataWithTrend "AAA"
        (some ⟨JsVal.num 100, JsVal.num 1, JsVal.num 1, JsVal.num 1, JsVal.null⟩) none).map
      (fun r => jsGet r "changePercent")) = some (JsVal.num 0) ∧
    JsVal.num 0 ≠ JsVal.null := by
  constructor
  · norm_num [getStockDataWithTrend, jsGet, jsTruthy]
    refine ⟨_, ⟨by decide, rfl⟩, ?_⟩
    decide
  · simp

/-- The quote-only record produced for symbol AAA from a quote with
previous close null (used by the C7 witness). -/
def recordFinnhubC7 : JsObj :=
  [("symbol", JsVal.str "AAA"), ("close", JsVal.num 100), ("open", JsVal.num 1),
   ("high", JsVal.num 2), ("low", JsVal.num 3), ("prevClose", JsVal.null),
   ("change", JsVal.num 100), ("changePercent", JsVal.num 0),
   ("volume", JsVal.null), ("avgVolume", JsVal.null), ("week52High", JsVal.null),
   ("week52Low", JsVal.null), ("marketCap", JsVal.null), ("currency", JsVal.str "USD"),
   ("is_etf", JsVal.bool false), ("asset_type", JsVal.str "equity"),
   ("tradable_on_t212_cfd", JsVal.bool true), ("name", JsVal.str "AAA")]

/-- C7 witness: the guarded-division theorem applied at a concrete quote
with previous close null. -/
theorem changePercent_guarded_witness :
    jsGet recordFinnhubC7 "changePercent" = JsVal.num 0 :=
  (changePercent_guarded "AAA" ⟨JsVal.num 100, JsVal.num 1, JsVal.num 2, JsVal.num 3, JsVal.null⟩
      none recordFinnhubC7 (by rfl)).2
    (by
      norm_num [getStockDataFinnhub, recordFinnhubC7, jsSub, jsToNum, optSub, jsTruthy,
        etfListFinnhub, (show "AAA".length = 3 from rfl)]
      decide)

/-- C8 (amended): getStockDataWithTrend returns the no-usable-quote signal
(null) exactly when the quote payload is absent/falsy or its current price
is strictly equal to 0 or strictly equal to null, and the batch fetch is
exactly the filterMap of the per-symbol enrichment, so precisely those
symbols are excluded from the batch output.  A negative or undefined
current price is not caught by the guard. -/
theorem no_usable_quote_signal :
    (∀ (symbol : String) (quoteIn : Option RawQuote) (candlesIn : Option Candles),
      getStockDataWithTrend symbol quoteIn candlesIn = none ↔
        quoteIn = none ∨
          ∃ q, quoteIn = some q ∧ (q.c = JsVal.num 0 ∨ q.c = JsVal.null)) ∧
    (∀ (fetch : String → Option RawQuote × Option Candles) (symbols : List String),
      getStockDataBatch fetch symbols
        = symbols.filterMap (fun s => getStockDataWithTrend s (fetch s).1 (fetch s).2)) := by
  constructor
  · intro symbol quoteIn candlesIn
    match quoteIn with
    | none => simp [getStockDataWithTrend]
    | some q =>
      by_cases hguard : q.c = JsVal.num 0 ∨ q.c = JsVal.null
      · constructor
        · intro _
          exact Or.inr ⟨q, rfl, hguard⟩
        · intro _
          simp only [getStockDataWithTrend, if_pos hguard]
      · constructor
        · intro h
          simp only [getStockDataWithTrend] at h
          rw [if_neg hguard] at h
          exact Option.noConfusion h
        · rintro (hnone | ⟨q2, hq2, hg⟩)
          · exact Option.noConfusion hnone
          · obtain rfl : q = q2 := Option.some.inj hq2
            exact absurd hg hguard
  · exact getStockDataBatch_eq_filterMap

/-- C8 counterexample: a quote with a negative current price, and one with
an undefined current price, both slip past the guard and yield a record,
although the claim says any missing or non-positive current price gives the
no-usable-quote signal. -/
theorem negative_price_yields_record :
    (getStockDataWithTrend "AAA"
        (some ⟨JsVal.num (-5), JsVal.num 1, JsVal.num 1, JsVal.num 1, JsVal.num 1⟩)
        none).isSome = true ∧
    (getStockDataWithTrend "AAA"
        (some ⟨JsVal.undef, JsVal.num 1, JsVal.num 1, JsVal.num 1, JsVal.num 1⟩)
        none).isSome = true := by
  constructor
  · norm_num [getStockDataWithTrend]
    decide
  · decide

/-- C8 witness: the signal characterization applied at a quote whose
current price is exactly 0. -/
theorem no_usable_quote_signal_witness :
    getStockDataWithTrend "AAA"
        (some ⟨JsVal.num 0, JsVal.num 1, JsVal.num 1, JsVal.num 1, JsVal.num 1⟩) none = none :=
  (no_usable_quote_signal.1 "AAA"
      (some ⟨JsVal.num 0, JsVal.num 1, JsVal.num 1, JsVal.num 1, JsVal.num 1⟩) none).mpr
    (Or.inr ⟨⟨JsVal.num 0, JsVal.num 1, JsVal.num 1, JsVal.num 1, JsVal.num 1⟩, rfl,
      Or.inl rfl⟩)

/-- C10: for every quote source, universe and condition list, the enhanced
response's count equals the length of its result list, and
count ≤ valid_data ≤ screened_size ≤ universe_size. -/
theorem response_count_consistency (fetch : String → Option RawQuote × Option Candles)
    (univ : List String) (conds : List Condition) :
    (screenEnhanced fetch univ conds).count = (screenEnhanced fetch univ conds).results.length ∧
    (screenEnhanced fetch univ conds).count ≤ (screenEnhanced fetch univ conds).valid_data ∧
    (screenEnhanced fetch univ conds).valid_data
        ≤ (screenEnhanced fetch univ conds).screened_size ∧
    (screenEnhanced fetch univ conds).screened_size
        ≤ (screenEnhanced fetch univ conds).universe_size := by
  refine ⟨rfl, ?_, ?_, ?_⟩
  · show (applyConditionsEnhanced (getStockDataBatch fetch (univ.take 25)) conds).length
        ≤ (getStockDataBatch fetch (univ.take 25)).length
    exact applyConditionsEnhanced_length_le _ _
  · show (getStockDataBatch fetch (univ.take 25)).length ≤ (univ.take 25).length
    rw [getStockDataBatch_eq_filterMap]
    exact List.length_filterMap_le _ _
  · show (univ.take 25).length ≤ univ.length
    rw [List.length_take]
    omega

/-- C10 witness: the bookkeeping inequalities instantiated on a concrete
one-symbol request. -/
theorem response_count_consistency_witness :
    (screenEnhanced (fun _ => (none, none)) ["A"] []).count
      ≤ (screenEnhanced (fun _ => (none, none)) ["A"] []).valid_data :=
  (response_count_consistency (fun _ => (none, none)) ["A"] []).2.1
